import Mathlib

/-!
# job-shim: the per-job coordinator of `src/cmd/job-shim/main.go`

The command function of `do` talks to five collaborators that live outside the
file (grpc.Dial, the pps client, the fuse mounter, pkgexec and the process
environment).  Their answers are collected in a `World`; the coordinator is the
function `run`, which maps a world, the parsed environment and the positional
arguments to the trace of external calls and the way the process ends.
-/

namespace JobShim

/-! ## Data model -/

/-- Modelled from the spec: the type `pfs.Commit` (a data-version reference) is declared
outside `main.go`; the coordinator only copies references to it. -/
structure Commit where
  Repo : String
  Id : String
deriving DecidableEq, Repr

/-- Modelled from the spec: the type `fuse.CommitMount`, a data-version reference paired with
an optional alias (the empty string when the field is left out of the literal). -/
structure CommitMount where
  Commit : JobShim.Commit
  Alias : String
deriving DecidableEq, Repr

/-- Modelled from the spec: the type `pps.Transform`, a command with its argument list and the
string delivered on standard input. -/
structure Transform where
  Cmd : List String
  Stdin : String
deriving DecidableEq, Repr

/-- Modelled from the spec: the type `pps.StartJobResponse`, the work allocation returned by
allocate-work: input versions, one output version, a shard index and the transform. -/
structure StartJobResponse where
  InputCommit : List Commit
  OutputCommit : Commit
  Shard : Nat
  Transform : JobShim.Transform
deriving DecidableEq, Repr

/-- The struct `appEnv` of `main.go`, as filled in by the environment parser. -/
structure appEnv where
  PachydermPfsd1Port : String
  PfsAddress : String
  PachydermPpsd1Port : String
  PpsAddress : String
deriving DecidableEq, Repr

/-! ## Service locator -/

/-- Left-to-right removal/replacement of the non-overlapping occurrences of `old`.
The counter is the number of characters of the current occurrence still to skip. -/
def replaceGo (old new : List Char) : Nat → List Char → List Char
  | _, [] => []
  | Nat.succ k, _ :: cs => replaceGo old new k cs
  | 0, c :: cs =>
      if old.isPrefixOf (c :: cs) then new ++ replaceGo old new (old.length - 1) cs
      else c :: replaceGo old new 0 cs

/-- The library call `strings.Replace(s, old, new, -1)` for a non-empty `old`: every
non-overlapping instance of `old` in `s`, scanning from the left, is replaced by `new`. -/
def stringsReplace (s old new : String) : String :=
  String.mk (replaceGo old.data new.data 0 s.data)

/-- The function `getPfsdAddress`; `getenv` is `os.Getenv`. -/
def getPfsdAddress (getenv : String → String) (e : appEnv) : String :=
  let pfsdAddr := getenv "PFSD_PORT_650_TCP_ADDR"
  if pfsdAddr ≠ "" then pfsdAddr ++ ":650"
  else if e.PachydermPfsd1Port ≠ "" then stringsReplace e.PachydermPfsd1Port "tcp://" ""
  else e.PfsAddress

/-- The function `getPpsdAddress`; `getenv` is `os.Getenv`. -/
def getPpsdAddress (getenv : String → String) (e : appEnv) : String :=
  let ppsdAddr := getenv "PPSD_PORT_651_TCP_ADDR"
  if ppsdAddr ≠ "" then ppsdAddr ++ ":651"
  else if e.PachydermPpsd1Port ≠ "" then stringsReplace e.PachydermPpsd1Port "tcp://" ""
  else e.PpsAddress

/-! ## The collaborators -/

/-- What the goroutine running `mounter.Mount` does, as seen from the command function.
`failsBeforeReady err`: Mount returns `err` without having sent on `ready`.
`neverReady`: nothing is ever sent on `ready` and no error is returned.
`ready`: Mount sends on `ready` and goes on serving (or returns nil) until the process ends.
`readyThenFails k err`: Mount sends on `ready` and returns `err` once the main goroutine has
produced `k` further events. -/
inductive MountOutcome where
  | failsBeforeReady (err : String)
  | neverReady
  | ready
  | readyThenFails (k : Nat) (err : String)
deriving DecidableEq, Repr

/-- The answers of everything `main.go` calls but does not define. An `Option String` is a Go
`error`: `none` is nil and `some msg` an error whose `Error()` is `msg`. -/
structure World where
  /-- The call os.Getenv. -/
  Getenv : String → String
  /-- The call fmt.Sprintf(format) with no operands, as used by errorAndExit. -/
  Sprintf : String → String
  /-- The error of grpc.Dial in getPfsAPIClient. -/
  DialPfs : String → Option String
  /-- The error of grpc.Dial in getPpsAPIClient. -/
  DialPps : String → Option String
  /-- The call ppsAPIClient.StartJob, by job id. -/
  StartJob : String → Except String StartJobResponse
  /-- The call mounter.Mount, by mount point, shard and commit mounts. -/
  Mount : String → Nat → List CommitMount → MountOutcome
  /-- The error of pkgexec.RunIO, by the stdin string and the command. -/
  RunResult : String → List String → Option String
  /-- The error of ppsAPIClient.FinishJob, by job id, shard and success flag. -/
  FinishJob : String → Nat → Bool → Option String
  /-- The error of mounter.Unmount, by mount point. -/
  Unmount : String → Option String

deriving instance DecidableEq for Except

/-- One external effect of the coordinator, with the answer it got. -/
inductive Event where
  | dialPfs (address : String) (err : Option String)
  | dialPps (address : String) (err : Option String)
  | startJob (id : String) (result : Except String StartJobResponse)
  | mount (path : String) (shard : Nat) (mounts : List CommitMount)
  | ready
  | runTransform (stdin : String) (cmd : List String) (err : Option String)
  | finishJob (id : String) (shard : Nat) (success : Bool) (err : Option String)
  | unmount (path : String) (err : Option String)
  | stderr (line : String)
deriving DecidableEq, Repr

/-- How the process ends: an exit code, a goroutine blocked for ever, or a Go panic. -/
inductive Outcome where
  | exited (code : Nat)
  | blocked
  | panicked
deriving DecidableEq, Repr

/-- A run: the trace of external effects in order, and the way the process ends. -/
structure Run where
  trace : List Event
  outcome : Outcome
deriving DecidableEq, Repr

def Event.isMount : Event → Bool
  | .mount _ _ _ => true
  | _ => false

def Event.isRunTransform : Event → Bool
  | .runTransform _ _ _ => true
  | _ => false

def Event.isFinishJob : Event → Bool
  | .finishJob _ _ _ _ => true
  | _ => false

def Event.isUnmount : Event → Bool
  | .unmount _ _ => true
  | _ => false

/-! ## The coordinator -/

/-- The function `errorAndExit` called with a single argument: one line on the error stream,
then `os.Exit(1)`, which ends the process without running deferred calls. -/
def errorAndExit (w : World) (format : String) : Run :=
  ⟨[Event.stderr (w.Sprintf format ++ "\n")], Outcome.exited 1⟩

/-- Lines 60 to 68 of `do`: one mount without alias per input commit, in order, then the
output commit under the alias `out`. -/
def commitMounts (response : StartJobResponse) : List CommitMount :=
  let inputs := response.InputCommit.foldl
    (fun acc inputCommit => acc ++ [({ Commit := inputCommit, Alias := "" } : CommitMount)]) []
  inputs ++ [{ Commit := response.OutputCommit, Alias := "out" }]

/-- Lines 80 to 89 of `do`: the transform is run on the allocation's stdin and command; an
error of the runner is written to the error stream and turns the success flag off. -/
def transformStep (w : World) (response : StartJobResponse) : List Event × Bool :=
  match w.RunResult response.Transform.Stdin response.Transform.Cmd with
  | some msg =>
      ([Event.runTransform response.Transform.Stdin response.Transform.Cmd (some msg),
        Event.stderr (msg ++ "\n")], false)
  | none => ([Event.runTransform response.Transform.Stdin response.Transform.Cmd none], true)

/-- Lines 75 to 101 of `do`, the main goroutine once `ready` has been received: the deferred
Unmount is registered, the transform runs, the report is sent, and the deferred call runs when
the command function returns. -/
def afterReady (w : World) (id : String) (response : StartJobResponse) : Run :=
  let ran := (transformStep w response).1
  let success := (transformStep w response).2
  match w.FinishJob id response.Shard success with
  | some msg =>
      ⟨ran ++ Event.finishJob id response.Shard success (some msg) :: (errorAndExit w msg).trace,
        (errorAndExit w msg).outcome⟩
  | none =>
      match w.Unmount "/pfs" with
      | some msg =>
          ⟨ran ++ Event.finishJob id response.Shard success none ::
              Event.unmount "/pfs" (some msg) :: (errorAndExit w msg).trace,
            (errorAndExit w msg).outcome⟩
      | none =>
          ⟨ran ++ [Event.finishJob id response.Shard success none, Event.unmount "/pfs" none],
            Outcome.exited 0⟩

/-- The goroutine of lines 69 to 73 against the main goroutine: when Mount returns an error
after `k` events of `main`, errorAndExit ends the process there; when `main` is over first,
the goroutine dies with the process. -/
def withMountFailure (w : World) (k : Nat) (err : String) (main : Run) : Run :=
  if k < main.trace.length then
    ⟨main.trace.take k ++ (errorAndExit w err).trace, (errorAndExit w err).outcome⟩
  else main

/-- Lines 58 to 101 of `do`: the mount is started, the main goroutine waits for `ready`. -/
def mountAndRun (w : World) (id : String) (response : StartJobResponse) : Run :=
  let mounts := commitMounts response
  let started := Event.mount "/pfs" response.Shard mounts
  match w.Mount "/pfs" response.Shard mounts with
  | .failsBeforeReady err => ⟨started :: (errorAndExit w err).trace, (errorAndExit w err).outcome⟩
  | .neverReady => ⟨[started], Outcome.blocked⟩
  | .ready =>
      ⟨started :: Event.ready :: (afterReady w id response).trace,
        (afterReady w id response).outcome⟩
  | .readyThenFails k err =>
      ⟨started :: Event.ready :: (withMountFailure w k err (afterReady w id response)).trace,
        (withMountFailure w k err (afterReady w id response)).outcome⟩

/-- The command function of `do` (lines 37 to 102) followed by the normal return of `do`;
`args` are the positional arguments handed over by the command-line library. -/
def run (w : World) (e : appEnv) (args : List String) : Run :=
  let pfsAddress := getPfsdAddress w.Getenv e
  match w.DialPfs pfsAddress with
  | some msg =>
      ⟨Event.dialPfs pfsAddress (some msg) :: (errorAndExit w msg).trace,
        (errorAndExit w msg).outcome⟩
  | none =>
    let ppsAddress := getPpsdAddress w.Getenv e
    match w.DialPps ppsAddress with
    | some msg =>
        ⟨Event.dialPfs pfsAddress none :: Event.dialPps ppsAddress (some msg) ::
            (errorAndExit w msg).trace,
          (errorAndExit w msg).outcome⟩
    | none =>
      let dialled := [Event.dialPfs pfsAddress none, Event.dialPps ppsAddress none]
      match args with
      | [] => ⟨dialled, Outcome.panicked⟩
      | id :: _ =>
        match w.StartJob id with
        | .error msg =>
            ⟨dialled ++ Event.startJob id (.error msg) :: (errorAndExit w msg).trace,
              (errorAndExit w msg).outcome⟩
        | .ok response =>
            ⟨dialled ++ Event.startJob id (.ok response) :: (mountAndRun w id response).trace,
              (mountAndRun w id response).outcome⟩

/-! ## A concrete world: the scenario of job-42 -/

def v1 : Commit := ⟨"data", "v1"⟩

def v2 : Commit := ⟨"data", "v2"⟩

def allocation42 : StartJobResponse :=
  { InputCommit := [v1], OutputCommit := v2, Shard := 3,
    Transform := { Cmd := ["/bin/echo", "hi"], Stdin := "" } }

def env0 : appEnv :=
  { PachydermPfsd1Port := "", PfsAddress := "0.0.0.0:650",
    PachydermPpsd1Port := "", PpsAddress := "0.0.0.0:651" }

/-- Every collaborator succeeds; only the job `job-42` is known to the control plane. -/
def world0 : World :=
  { Getenv := fun _ => ""
    Sprintf := fun s => s
    DialPfs := fun _ => none
    DialPps := fun _ => none
    StartJob := fun id => if id = "job-42" then .ok allocation42 else .error "unknown job"
    Mount := fun _ _ _ => MountOutcome.ready
    RunResult := fun _ _ => none
    FinishJob := fun _ _ _ => none
    Unmount := fun _ => none }

/-- The command line of the scenario. -/
def args42 : List String := ["job-42"]

/-- A command line naming a job the control plane does not know. -/
def args7 : List String := ["job-7"]

/-- The transform exits with a nonzero status. -/
def worldTransformFails : World :=
  { world0 with RunResult := fun _ _ => some "exit status 1" }

/-- The control plane cannot be reached when the report is sent. -/
def worldReportFails : World :=
  { world0 with FinishJob := fun _ _ _ => some "ppsd unreachable" }

/-- The mount point is busy when it is unmounted. -/
def worldUnmountFails : World :=
  { world0 with Unmount := fun _ => some "device busy" }

/-- The mount never becomes usable. -/
def worldNeverReady : World :=
  { world0 with Mount := fun _ _ _ => MountOutcome.neverReady }

/-- Both injected peer addresses are set. -/
def worldInjected : World :=
  { world0 with
    Getenv := fun name =>
      if name = "PFSD_PORT_650_TCP_ADDR" then "10.0.0.1"
      else if name = "PPSD_PORT_651_TCP_ADDR" then "10.0.0.2" else "" }

/-- Both connection strings are set, next to the defaults. -/
def envLinked : appEnv :=
  { PachydermPfsd1Port := "tcp://172.17.0.2:650", PfsAddress := "0.0.0.0:650",
    PachydermPpsd1Port := "tcp://172.17.0.3:651", PpsAddress := "0.0.0.0:651" }

/-- A connection string in which the schema occurs a second time. -/
def envTwice : appEnv :=
  { PachydermPfsd1Port := "tcp://a/tcp://b", PfsAddress := "0.0.0.0:650",
    PachydermPpsd1Port := "tcp://a/tcp://b", PpsAddress := "0.0.0.0:651" }

/-! ## Properties of traces -/

/-- The stripping of a schema prefix as the specification words it: the remainder after a
leading `tcp://`, the string itself when it does not start with `tcp://`. -/
def stripSchemaSpec (s : String) : String :=
  if "tcp://".data.isPrefixOf s.data then String.mk (s.data.drop 6) else s

/-- What a resolver does with the connection string `conn` and the default address `dflt`
once the injected address is empty, `result` being the address it returns. -/
def ResolvesConnection (conn dflt result : String) : Prop :=
  (conn = "" → result = dflt) ∧
  (conn ≠ "" → result = stringsReplace conn "tcp://" "") ∧
  (∀ rest : String, conn = "tcp://" ++ rest → ¬ "tcp://".data <:+: rest.data →
    result = rest) ∧
  (conn ≠ "" → ¬ "tcp://".data <:+: conn.data → result = conn)

def Event.isReady : Event → Bool
  | .ready => true
  | _ => false

/-- Every event satisfying `Q` comes after some event satisfying `P`. -/
def precededBy (P Q : Event → Bool) : List Event → Bool
  | [] => true
  | ev :: rest => !Q ev && (P ev || precededBy P Q rest)

end JobShim

namespace JobShim

/-! ## Structure of a run -/

/-- The two shapes of the transform step. -/
theorem transformStep_cases (w : World) (r : StartJobResponse) :
    (∃ msg, w.RunResult r.Transform.Stdin r.Transform.Cmd = some msg ∧
      transformStep w r =
        ([Event.runTransform r.Transform.Stdin r.Transform.Cmd (some msg),
          Event.stderr (msg ++ "\n")], false)) ∨
    (w.RunResult r.Transform.Stdin r.Transform.Cmd = none ∧
      transformStep w r = ([Event.runTransform r.Transform.Stdin r.Transform.Cmd none], true)) := by
  unfold transformStep
  cases h : w.RunResult r.Transform.Stdin r.Transform.Cmd <;> simp

/-- The success flag is on exactly when the runner returned no error. -/
theorem transformStep_success (w : World) (r : StartJobResponse) :
    (transformStep w r).2 = true ↔ w.RunResult r.Transform.Stdin r.Transform.Cmd = none := by
  unfold transformStep
  cases h : w.RunResult r.Transform.Stdin r.Transform.Cmd <;> simp

/-- The three ways the main goroutine ends once the mount is ready. -/
theorem afterReady_cases (w : World) (id : String) (r : StartJobResponse) :
    (∃ msg, w.FinishJob id r.Shard (transformStep w r).2 = some msg ∧
      afterReady w id r =
        ⟨(transformStep w r).1 ++
          [Event.finishJob id r.Shard (transformStep w r).2 (some msg),
           Event.stderr (w.Sprintf msg ++ "\n")], Outcome.exited 1⟩) ∨
    (∃ msg, w.FinishJob id r.Shard (transformStep w r).2 = none ∧ w.Unmount "/pfs" = some msg ∧
      afterReady w id r =
        ⟨(transformStep w r).1 ++
          [Event.finishJob id r.Shard (transformStep w r).2 none,
           Event.unmount "/pfs" (some msg), Event.stderr (w.Sprintf msg ++ "\n")],
         Outcome.exited 1⟩) ∨
    (w.FinishJob id r.Shard (transformStep w r).2 = none ∧ w.Unmount "/pfs" = none ∧
      afterReady w id r =
        ⟨(transformStep w r).1 ++
          [Event.finishJob id r.Shard (transformStep w r).2 none, Event.unmount "/pfs" none],
         Outcome.exited 0⟩) := by
  unfold afterReady
  simp only [errorAndExit]
  cases h1 : w.FinishJob id r.Shard (transformStep w r).2 with
  | some msg => simp
  | none =>
    cases h2 : w.Unmount "/pfs" with
    | some msg => simp
    | none => simp

/-- The five ways the mount goroutine and the main goroutine combine. -/
theorem mountAndRun_cases (w : World) (id : String) (r : StartJobResponse) :
    (∃ err, w.Mount "/pfs" r.Shard (commitMounts r) = .failsBeforeReady err ∧
      mountAndRun w id r =
        ⟨[Event.mount "/pfs" r.Shard (commitMounts r), Event.stderr (w.Sprintf err ++ "\n")],
         Outcome.exited 1⟩) ∨
    (w.Mount "/pfs" r.Shard (commitMounts r) = .neverReady ∧
      mountAndRun w id r = ⟨[Event.mount "/pfs" r.Shard (commitMounts r)], Outcome.blocked⟩) ∨
    ((w.Mount "/pfs" r.Shard (commitMounts r) = .ready ∨
        ∃ k err, w.Mount "/pfs" r.Shard (commitMounts r) = .readyThenFails k err ∧
          (afterReady w id r).trace.length ≤ k) ∧
      mountAndRun w id r =
        ⟨Event.mount "/pfs" r.Shard (commitMounts r) :: Event.ready :: (afterReady w id r).trace,
         (afterReady w id r).outcome⟩) ∨
    (∃ k err, w.Mount "/pfs" r.Shard (commitMounts r) = .readyThenFails k err ∧
      k < (afterReady w id r).trace.length ∧
      mountAndRun w id r =
        ⟨Event.mount "/pfs" r.Shard (commitMounts r) :: Event.ready ::
          ((afterReady w id r).trace.take k ++ [Event.stderr (w.Sprintf err ++ "\n")]),
         Outcome.exited 1⟩) := by
  unfold mountAndRun
  simp only [errorAndExit, withMountFailure]
  cases h : w.Mount "/pfs" r.Shard (commitMounts r) with
  | failsBeforeReady err => simp
  | neverReady => simp
  | ready => simp
  | readyThenFails k err =>
    by_cases hk : k < (afterReady w id r).trace.length
    · refine Or.inr (Or.inr (Or.inr ⟨k, err, rfl, hk, ?_⟩))
      simp [hk]
    · refine Or.inr (Or.inr (Or.inl ⟨Or.inr ⟨k, err, rfl, Nat.le_of_not_lt hk⟩, ?_⟩))
      simp [hk]

/-- The five ways a run goes up to the start of the mount. -/
theorem run_cases (w : World) (e : appEnv) (args : List String) :
    (∃ msg, w.DialPfs (getPfsdAddress w.Getenv e) = some msg ∧
      run w e args =
        ⟨[Event.dialPfs (getPfsdAddress w.Getenv e) (some msg),
          Event.stderr (w.Sprintf msg ++ "\n")], Outcome.exited 1⟩) ∨
    (∃ msg, w.DialPps (getPpsdAddress w.Getenv e) = some msg ∧
      run w e args =
        ⟨[Event.dialPfs (getPfsdAddress w.Getenv e) none,
          Event.dialPps (getPpsdAddress w.Getenv e) (some msg),
          Event.stderr (w.Sprintf msg ++ "\n")], Outcome.exited 1⟩) ∨
    (args = [] ∧
      run w e args =
        ⟨[Event.dialPfs (getPfsdAddress w.Getenv e) none,
          Event.dialPps (getPpsdAddress w.Getenv e) none], Outcome.panicked⟩) ∨
    (∃ id msg, args.head? = some id ∧ w.StartJob id = .error msg ∧
      run w e args =
        ⟨[Event.dialPfs (getPfsdAddress w.Getenv e) none,
          Event.dialPps (getPpsdAddress w.Getenv e) none,
          Event.startJob id (.error msg), Event.stderr (w.Sprintf msg ++ "\n")],
         Outcome.exited 1⟩) ∨
    (∃ id r, args.head? = some id ∧ w.StartJob id = .ok r ∧
      run w e args =
        ⟨Event.dialPfs (getPfsdAddress w.Getenv e) none ::
          Event.dialPps (getPpsdAddress w.Getenv e) none ::
          Event.startJob id (.ok r) :: (mountAndRun w id r).trace,
         (mountAndRun w id r).outcome⟩) := by
  unfold run
  simp only [errorAndExit]
  cases h1 : w.DialPfs (getPfsdAddress w.Getenv e) with
  | some msg => simp
  | none =>
    cases h2 : w.DialPps (getPpsdAddress w.Getenv e) with
    | some msg => simp
    | none =>
      cases args with
      | nil => simp
      | cons id rest =>
        cases h3 : w.StartJob id with
        | error msg => simp [h3]
        | ok r => simp [h3]

/-- Every event of the main goroutine after `ready` is one of four kinds. -/
theorem mem_afterReady {w : World} {id : String} {r : StartJobResponse} {ev : Event}
    (h : ev ∈ (afterReady w id r).trace) :
    (∃ err, ev = Event.runTransform r.Transform.Stdin r.Transform.Cmd err) ∨
    (∃ line, ev = Event.stderr line) ∨
    (∃ err, ev = Event.finishJob id r.Shard (transformStep w r).2 err) ∨
    (∃ err, ev = Event.unmount "/pfs" err) := by
  rcases afterReady_cases w id r with ⟨m, _, hM⟩ | ⟨m, _, _, hM⟩ | ⟨_, _, hM⟩ <;>
    rcases transformStep_cases w r with ⟨m2, _, hT⟩ | ⟨_, hT⟩ <;>
    simp only [hM, hT, List.mem_append, List.mem_cons, List.mem_singleton, List.not_mem_nil,
      or_false, List.cons_append, List.nil_append] at h <;>
    aesop

/-- Every event from the start of the mount on is one of four kinds. -/
theorem mem_mountAndRun {w : World} {id : String} {r : StartJobResponse} {ev : Event}
    (h : ev ∈ (mountAndRun w id r).trace) :
    ev = Event.mount "/pfs" r.Shard (commitMounts r) ∨ ev = Event.ready ∨
    (∃ line, ev = Event.stderr line) ∨ ev ∈ (afterReady w id r).trace := by
  rcases mountAndRun_cases w id r with ⟨m, _, hM⟩ | ⟨_, hM⟩ | ⟨_, hM⟩ | ⟨k, m, _, _, hM⟩ <;>
    simp only [hM, List.mem_append, List.mem_cons, List.mem_singleton, List.not_mem_nil,
      or_false] at h
  · rcases h with h | h <;> simp [h]
  · simp [h]
  · rcases h with h | h | h <;> simp [h]
  · rcases h with h | h | h | h
    · simp [h]
    · simp [h]
    · exact Or.inr (Or.inr (Or.inr (List.mem_of_mem_take h)))
    · simp [h]

/-- No allocate-work call is made once the mount has been started. -/
theorem startJob_not_mem_mountAndRun (w : World) (id : String) (r : StartJobResponse)
    (id2 : String) (res : Except String StartJobResponse) :
    Event.startJob id2 res ∉ (mountAndRun w id r).trace := by
  intro h
  rcases mem_mountAndRun h with h | h | ⟨_, h⟩ | h
  · cases h
  · cases h
  · cases h
  · rcases mem_afterReady h with ⟨_, h⟩ | ⟨_, h⟩ | ⟨_, h⟩ | ⟨_, h⟩ <;> cases h

/-- A run in which allocate-work was called and failed. -/
theorem run_of_startJob_error {w : World} {e : appEnv} {args : List String} {id msg : String}
    (h : Event.startJob id (.error msg) ∈ (run w e args).trace) :
    run w e args =
      ⟨[Event.dialPfs (getPfsdAddress w.Getenv e) none,
        Event.dialPps (getPpsdAddress w.Getenv e) none,
        Event.startJob id (.error msg), Event.stderr (w.Sprintf msg ++ "\n")],
       Outcome.exited 1⟩ := by
  rcases run_cases w e args with ⟨m, _, hR⟩ | ⟨m, _, hR⟩ | ⟨_, hR⟩ | ⟨i, m, _, _, hR⟩ |
    ⟨i, r, _, _, hR⟩ <;> rw [hR] at h ⊢ <;> simp at h
  · obtain ⟨rfl, rfl⟩ := h
    rfl
  · exact absurd h (startJob_not_mem_mountAndRun _ _ _ _ _)

/-- A run in which allocate-work was called and returned an allocation. -/
theorem run_of_startJob_ok {w : World} {e : appEnv} {args : List String} {id : String}
    {r : StartJobResponse} (h : Event.startJob id (.ok r) ∈ (run w e args).trace) :
    args.head? = some id ∧ w.StartJob id = .ok r ∧
    run w e args =
      ⟨Event.dialPfs (getPfsdAddress w.Getenv e) none ::
        Event.dialPps (getPpsdAddress w.Getenv e) none ::
        Event.startJob id (.ok r) :: (mountAndRun w id r).trace,
       (mountAndRun w id r).outcome⟩ := by
  rcases run_cases w e args with ⟨m, _, hR⟩ | ⟨m, _, hR⟩ | ⟨_, hR⟩ | ⟨i, m, _, _, hR⟩ |
    ⟨i, r2, h1, h2, hR⟩ <;> rw [hR] at h ⊢ <;> simp at h
  rcases h with ⟨rfl, rfl⟩ | h
  · exact ⟨h1, h2, rfl⟩
  · exact absurd h (startJob_not_mem_mountAndRun _ _ _ _ _)

/-! ## Counting calls in a trace -/

/-- A singleton filter that already shows in a prefix is the filter of that prefix. -/
theorem filter_take_singleton {α : Type} (P : α → Bool) {l : List α} {x y : α} {k : Nat}
    (hl : l.filter P = [x]) (hy : y ∈ l.take k) (hP : P y = true) :
    (l.take k).filter P = [x] := by
  have h := congrArg (List.filter P) (List.take_append_drop k l)
  rw [List.filter_append, hl] at h
  have hmem : y ∈ (l.take k).filter P := List.mem_filter.mpr ⟨hy, hP⟩
  cases hA : (l.take k).filter P with
  | nil => rw [hA] at hmem; exact absurd hmem (List.not_mem_nil _)
  | cons a as =>
    rw [hA] at h
    simp only [List.cons_append, List.cons.injEq, List.append_eq_nil] at h
    rw [h.1, h.2.1]

/-- The main goroutine calls report-completion exactly once after `ready`. -/
theorem filter_finishJob_afterReady (w : World) (id : String) (r : StartJobResponse) :
    (afterReady w id r).trace.filter Event.isFinishJob =
      [Event.finishJob id r.Shard (transformStep w r).2
        (w.FinishJob id r.Shard (transformStep w r).2)] := by
  rcases afterReady_cases w id r with ⟨m, hf, hM⟩ | ⟨m, hf, _, hM⟩ | ⟨hf, _, hM⟩ <;>
    rcases transformStep_cases w r with ⟨m2, _, hT⟩ | ⟨_, hT⟩ <;>
    rw [hM, hf] <;> simp [hT, Event.isFinishJob, List.filter]

/-- A report that succeeded in the main goroutine is the report of the code. -/
theorem reportOk_mem_afterReady {w : World} {id : String} {r : StartJobResponse}
    {i : String} {s : Nat} {b : Bool}
    (h : Event.finishJob i s b none ∈ (afterReady w id r).trace) :
    w.FinishJob id r.Shard (transformStep w r).2 = none := by
  have hmem : Event.finishJob i s b none ∈ (afterReady w id r).trace.filter Event.isFinishJob :=
    List.mem_filter.mpr ⟨h, rfl⟩
  rw [filter_finishJob_afterReady] at hmem
  simp only [List.mem_singleton, Event.finishJob.injEq] at hmem
  exact hmem.2.2.2.symm

/-! ## C1: the completion report -/

/-- C1. In a run in which allocate-work returned the allocation `r` for the job id `id`, the
readiness signal was received and a report-completion call returned no error, the job id is
the first positional argument and the trace holds exactly one report-completion call: it
carries `id`, the shard of `r`, and a success flag that is on exactly when the transform
runner returned no error. -/
theorem report_sent_exactly_once (w : World) (e : appEnv) (args : List String) (id : String)
    (r : StartJobResponse)
    (hstart : Event.startJob id (.ok r) ∈ (run w e args).trace)
    (hready : Event.ready ∈ (run w e args).trace)
    (hreport : ∃ i s b, Event.finishJob i s b none ∈ (run w e args).trace) :
    args.head? = some id ∧
    ∃ success,
      (run w e args).trace.filter Event.isFinishJob = [Event.finishJob id r.Shard success none] ∧
      (success = true ↔ w.RunResult r.Transform.Stdin r.Transform.Cmd = none) := by
  have _ := hready
  obtain ⟨hargs, _, hR⟩ := run_of_startJob_ok hstart
  refine ⟨hargs, (transformStep w r).2, ?_, transformStep_success w r⟩
  obtain ⟨i, s, b, hfin⟩ := hreport
  rw [hR] at hfin ⊢
  have hF := filter_finishJob_afterReady w id r
  rcases mountAndRun_cases w id r with ⟨m, _, hM⟩ | ⟨_, hM⟩ | ⟨_, hM⟩ | ⟨k, m, _, _, hM⟩ <;>
    rw [hM] at hfin ⊢ <;>
    simp only [List.mem_cons, List.mem_singleton, List.mem_append, reduceCtorEq, false_or,
      or_false, List.not_mem_nil] at hfin
  · simp [List.filter, Event.isFinishJob, hF, reportOk_mem_afterReady hfin]
  · have hT := filter_take_singleton Event.isFinishJob hF hfin rfl
    simp [List.filter, Event.isFinishJob, hT, reportOk_mem_afterReady (List.mem_of_mem_take hfin)]

/-- The scenario of job-42 satisfies the hypotheses of C1. -/
theorem report_sent_exactly_once_witness :
    args42.head? = some "job-42" ∧
    ∃ success,
      (run world0 env0 args42).trace.filter Event.isFinishJob =
        [Event.finishJob "job-42" allocation42.Shard success none] ∧
      (success = true ↔
        world0.RunResult allocation42.Transform.Stdin allocation42.Transform.Cmd = none) :=
  report_sent_exactly_once world0 env0 args42 "job-42" allocation42 (by decide) (by decide)
    ⟨"job-42", 3, true, by decide⟩

/-! ## C9: allocation errors -/

/-- C9. When allocate-work is called for the job id `id` and returns the error `msg`, the
process exits with code 1, the last effect of the run is the line that errorAndExit writes to
the error stream for `msg`, and the trace holds no Mount call, no transform execution, no
Unmount call and no report-completion call. -/
theorem allocation_error_is_fatal (w : World) (e : appEnv) (args : List String)
    (id msg : String)
    (h : Event.startJob id (.error msg) ∈ (run w e args).trace) :
    (run w e args).outcome = Outcome.exited 1 ∧
    (run w e args).trace.getLast? = some (Event.stderr (w.Sprintf msg ++ "\n")) ∧
    ∀ ev ∈ (run w e args).trace,
      ev.isMount = false ∧ ev.isRunTransform = false ∧ ev.isUnmount = false ∧
        ev.isFinishJob = false := by
  rw [run_of_startJob_error h]
  refine ⟨rfl, rfl, ?_⟩
  intro ev hev
  simp only [List.mem_cons, List.mem_singleton, List.not_mem_nil, or_false] at hev
  rcases hev with rfl | rfl | rfl | rfl <;> exact ⟨rfl, rfl, rfl, rfl⟩

/-- The control plane of the scenario does not know the job `job-7`. -/
theorem allocation_error_is_fatal_witness :
    (run world0 env0 args7).outcome = Outcome.exited 1 ∧
    (run world0 env0 args7).trace.getLast? =
      some (Event.stderr (world0.Sprintf "unknown job" ++ "\n")) ∧
    ∀ ev ∈ (run world0 env0 args7).trace,
      ev.isMount = false ∧ ev.isRunTransform = false ∧ ev.isUnmount = false ∧
        ev.isFinishJob = false :=
  allocation_error_is_fatal world0 env0 args7 "job-7" "unknown job" (by decide)

/-! ## C8: a failing transform -/

/-- The success flag of the transform step is the absence of a runner error. -/
theorem transformStep_snd (w : World) (r : StartJobResponse) :
    (transformStep w r).2 = (w.RunResult r.Transform.Stdin r.Transform.Cmd).isNone := by
  unfold transformStep
  cases h : w.RunResult r.Transform.Stdin r.Transform.Cmd <;> rfl

/-- The run of a world in which both dials, allocate-work, the mount, the report and the
teardown succeed, whatever the transform runner returns. -/
theorem run_of_clean_world (w : World) (e : appEnv) (id : String) (rest : List String)
    (r : StartJobResponse)
    (hpfs : w.DialPfs (getPfsdAddress w.Getenv e) = none)
    (hpps : w.DialPps (getPpsdAddress w.Getenv e) = none)
    (hstart : w.StartJob id = .ok r)
    (hmount : w.Mount "/pfs" r.Shard (commitMounts r) = MountOutcome.ready)
    (hfin : w.FinishJob id r.Shard
      (w.RunResult r.Transform.Stdin r.Transform.Cmd).isNone = none)
    (hun : w.Unmount "/pfs" = none) :
    run w e (id :: rest) =
      ⟨Event.dialPfs (getPfsdAddress w.Getenv e) none ::
        Event.dialPps (getPpsdAddress w.Getenv e) none ::
        Event.startJob id (.ok r) :: Event.mount "/pfs" r.Shard (commitMounts r) ::
        Event.ready ::
          ((transformStep w r).1 ++
            [Event.finishJob id r.Shard
                (w.RunResult r.Transform.Stdin r.Transform.Cmd).isNone none,
              Event.unmount "/pfs" none]), Outcome.exited 0⟩ := by
  rw [← transformStep_snd] at hfin ⊢
  simp [run, hpfs, hpps, hstart, mountAndRun, hmount, afterReady, hfin, hun]

/-- C8. In a world in which both dials, allocate-work for the job id (returning `r`), the
mount, the report for the flag of the run and the teardown succeed, the process exits with
code 0 whether the transform runner returns an error or not, and the report is in the trace
with success = true exactly when the runner returned no error. When the runner returns the
error `msg`, the report is sent with success = false and `msg` is written as a line to the
error stream. A second run in a world that differs only in what the transform runner returns,
and in which the report for its flag succeeds too, ends with the same exit code. -/
theorem transform_failure_not_fatal (w : World) (e : appEnv) (id : String)
    (rest : List String) (r : StartJobResponse)
    (hpfs : w.DialPfs (getPfsdAddress w.Getenv e) = none)
    (hpps : w.DialPps (getPpsdAddress w.Getenv e) = none)
    (hstart : w.StartJob id = .ok r)
    (hmount : w.Mount "/pfs" r.Shard (commitMounts r) = MountOutcome.ready)
    (hfin : w.FinishJob id r.Shard
      (w.RunResult r.Transform.Stdin r.Transform.Cmd).isNone = none)
    (hun : w.Unmount "/pfs" = none) :
    (run w e (id :: rest)).outcome = Outcome.exited 0 ∧
    Event.finishJob id r.Shard (w.RunResult r.Transform.Stdin r.Transform.Cmd).isNone none ∈
      (run w e (id :: rest)).trace ∧
    (run w e (id :: rest)).trace.countP Event.isFinishJob = 1 ∧
    (∀ msg, w.RunResult r.Transform.Stdin r.Transform.Cmd = some msg →
      Event.finishJob id r.Shard false none ∈ (run w e (id :: rest)).trace ∧
      Event.stderr (msg ++ "\n") ∈ (run w e (id :: rest)).trace) ∧
    (∀ result : String → List String → Option String,
      w.FinishJob id r.Shard (result r.Transform.Stdin r.Transform.Cmd).isNone = none →
      (run { w with RunResult := result } e (id :: rest)).outcome =
        (run w e (id :: rest)).outcome) := by
  have hR := run_of_clean_world w e id rest r hpfs hpps hstart hmount hfin hun
  refine ⟨by rw [hR], by rw [hR]; simp, ?_, ?_, ?_⟩
  · rw [hR]
    rcases transformStep_cases w r with ⟨m2, _, hT⟩ | ⟨_, hT⟩ <;>
      simp [hT, List.countP_cons, Event.isFinishJob]
  · intro msg hmsg
    rw [hR]
    rcases transformStep_cases w r with ⟨m2, h2, hT⟩ | ⟨h2, _⟩
    · rw [h2] at hmsg
      cases hmsg
      simp [hT, h2]
    · rw [h2] at hmsg
      cases hmsg
  · intro result hfin2
    have hR2 := run_of_clean_world { w with RunResult := result } e id rest r
      hpfs hpps hstart hmount hfin2 hun
    rw [hR, hR2]

/-- The transform of job-42 fails and everything else succeeds: the exit code is 0, as in the
run in which the transform succeeds. -/
theorem transform_failure_not_fatal_witness :
    (run worldTransformFails env0 ["job-42"]).outcome = Outcome.exited 0 ∧
    Event.finishJob "job-42" 3 false none ∈ (run worldTransformFails env0 ["job-42"]).trace ∧
    Event.stderr ("exit status 1" ++ "\n") ∈ (run worldTransformFails env0 ["job-42"]).trace ∧
    (run { worldTransformFails with RunResult := fun _ _ => none } env0 ["job-42"]).outcome =
      (run worldTransformFails env0 ["job-42"]).outcome :=
  have h := transform_failure_not_fatal worldTransformFails env0 "job-42" [] allocation42
    (by decide) (by decide) (by decide) (by decide) (by decide) (by decide)
  ⟨h.1, (h.2.2.2.1 "exit status 1" (by decide)).1, (h.2.2.2.1 "exit status 1" (by decide)).2,
    h.2.2.2.2 (fun _ _ => none) (by decide)⟩

/-! ## C3: teardown when the report fails -/

/-- C3, the code at the failing input: the allocation, the mount and the transform succeed and
report-completion returns an error. The readiness signal is received, errorAndExit ends the
process with code 1 after the report, and the deferred Unmount is never called. -/
theorem teardown_skipped_when_report_fails :
    (run worldReportFails env0 args42).trace =
      [Event.dialPfs "0.0.0.0:650" none, Event.dialPps "0.0.0.0:651" none,
       Event.startJob "job-42" (.ok allocation42),
       Event.mount "/pfs" 3 [⟨v1, ""⟩, ⟨v2, "out"⟩], Event.ready,
       Event.runTransform "" ["/bin/echo", "hi"] none,
       Event.finishJob "job-42" 3 true (some "ppsd unreachable"),
       Event.stderr "ppsd unreachable\n"] ∧
    (run worldReportFails env0 args42).trace.countP Event.isUnmount = 0 ∧
    (run worldReportFails env0 args42).outcome = Outcome.exited 1 := by
  decide

/-! ## Order of the calls in a trace -/

/-- What the checker `precededBy` says about a trace split at one of its events. -/
theorem precededBy_split {P Q : Event → Bool} {l : List Event}
    (h : precededBy P Q l = true) (pre : List Event) (ev : Event) (post : List Event)
    (hl : l = pre ++ ev :: post) (hq : Q ev = true) : ∃ p ∈ pre, P p = true := by
  induction l generalizing pre with
  | nil => simp at hl
  | cons x xs ih =>
    simp only [precededBy, Bool.and_eq_true, Bool.not_eq_true', Bool.or_eq_true] at h
    cases pre with
    | nil =>
      simp only [List.nil_append, List.cons.injEq] at hl
      rw [← hl.1, h.1] at hq
      cases hq
    | cons y ys =>
      simp only [List.cons_append, List.cons.injEq] at hl
      rcases h.2 with hp | hrest
      · exact ⟨y, List.mem_cons_self _ _, by rw [← hl.1]; exact hp⟩
      · obtain ⟨p, hp, hp2⟩ := ih hrest ys hl.2
        exact ⟨p, List.mem_cons_of_mem _ hp, hp2⟩

/-- In every run, the transform and the report come after the readiness signal. -/
theorem run_ready_precedes (w : World) (e : appEnv) (args : List String) :
    precededBy Event.isReady (fun ev => ev.isRunTransform || ev.isFinishJob)
      (run w e args).trace = true := by
  rcases run_cases w e args with ⟨m, _, hR⟩ | ⟨m, _, hR⟩ | ⟨_, hR⟩ | ⟨i, m, _, _, hR⟩ |
    ⟨i, r, _, _, hR⟩ <;> rw [hR]
  · rfl
  · rfl
  · rfl
  · rfl
  · rcases mountAndRun_cases w i r with ⟨m, _, hM⟩ | ⟨_, hM⟩ | ⟨_, hM⟩ | ⟨k, m, _, _, hM⟩ <;>
      rw [hM] <;> rfl

/-- Before the report, the main goroutine neither reports nor unmounts. -/
theorem before_report_quiet (w : World) (e : appEnv) (id : String) (r : StartJobResponse) :
    ∀ ev ∈ Event.dialPfs (getPfsdAddress w.Getenv e) none ::
        Event.dialPps (getPpsdAddress w.Getenv e) none :: Event.startJob id (.ok r) ::
        Event.mount "/pfs" r.Shard (commitMounts r) :: Event.ready :: (transformStep w r).1,
      ev.isUnmount = false ∧ ev.isFinishJob = false := by
  intro ev hev
  rcases transformStep_cases w r with ⟨m2, _, hT⟩ | ⟨_, hT⟩ <;> rw [hT] at hev <;>
    simp only [List.mem_cons, List.mem_singleton, List.not_mem_nil, or_false] at hev
  · rcases hev with rfl | rfl | rfl | rfl | rfl | rfl | rfl <;> exact ⟨rfl, rfl⟩
  · rcases hev with rfl | rfl | rfl | rfl | rfl | rfl <;> exact ⟨rfl, rfl⟩

/-! ## C2: teardown and report -/

/-- C2 as stated fails in the scenario of job-42: the report is sent, and no Unmount call
stands before it in the trace. -/
theorem teardown_before_report_counterexample :
    ¬ ∀ (pre : List Event) (ev : Event) (post : List Event),
        (run world0 env0 args42).trace = pre ++ ev :: post → ev.isFinishJob = true →
        ∃ u ∈ pre, u.isUnmount = true := by
  intro h
  exact absurd
    (h [Event.dialPfs "0.0.0.0:650" none, Event.dialPps "0.0.0.0:651" none,
        Event.startJob "job-42" (.ok allocation42),
        Event.mount "/pfs" 3 [⟨v1, ""⟩, ⟨v2, "out"⟩], Event.ready,
        Event.runTransform "" ["/bin/echo", "hi"] none]
      (Event.finishJob "job-42" 3 true none) [Event.unmount "/pfs" none]
      (by decide) (by decide))
    (by decide)

/-- C2, amended. In a run in which allocate-work returned the allocation `r`, the Mount call
signalled readiness and did not fail, and the completion report was sent and accepted, the
teardown occurs, after the report: the trace is some events that hold neither an Unmount nor
a report-completion call, then the report-completion call, then the Unmount call of `/pfs`,
then events that hold no Unmount and no report-completion call. This holds whatever the
transform runner and Unmount itself returned. -/
theorem teardown_follows_report (w : World) (e : appEnv) (args : List String) (id : String)
    (r : StartJobResponse)
    (hstart : Event.startJob id (.ok r) ∈ (run w e args).trace)
    (hmount : w.Mount "/pfs" r.Shard (commitMounts r) = MountOutcome.ready)
    (hreport : ∃ i s b, Event.finishJob i s b none ∈ (run w e args).trace) :
    ∃ pre success post,
      (run w e args).trace =
        pre ++ Event.finishJob id r.Shard success none ::
          Event.unmount "/pfs" (w.Unmount "/pfs") :: post ∧
      (success = true ↔ w.RunResult r.Transform.Stdin r.Transform.Cmd = none) ∧
      (∀ ev ∈ pre, ev.isUnmount = false ∧ ev.isFinishJob = false) ∧
      (∀ ev ∈ post, ev.isUnmount = false ∧ ev.isFinishJob = false) := by
  obtain ⟨_, _, hR⟩ := run_of_startJob_ok hstart
  obtain ⟨i, s, b, hfin⟩ := hreport
  rw [hR] at hfin ⊢
  rcases mountAndRun_cases w id r with ⟨m, hc, _⟩ | ⟨hc, _⟩ | ⟨_, hM⟩ | ⟨k, m, hc, _, _⟩
  · rw [hmount] at hc; cases hc
  · rw [hmount] at hc; cases hc
  · rw [hM] at hfin ⊢
    simp only [List.mem_cons, reduceCtorEq, false_or] at hfin
    have hf := reportOk_mem_afterReady hfin
    rcases afterReady_cases w id r with ⟨m, hf2, _⟩ | ⟨m, _, hu2, hA⟩ | ⟨_, hu2, hA⟩
    · rw [hf] at hf2; cases hf2
    · rw [hA, hu2]
      refine ⟨Event.dialPfs (getPfsdAddress w.Getenv e) none ::
        Event.dialPps (getPpsdAddress w.Getenv e) none :: Event.startJob id (.ok r) ::
        Event.mount "/pfs" r.Shard (commitMounts r) :: Event.ready :: (transformStep w r).1,
        (transformStep w r).2, [Event.stderr (w.Sprintf m ++ "\n")], by simp,
        transformStep_success w r, before_report_quiet w e id r, ?_⟩
      intro ev hev
      simp only [List.mem_singleton] at hev
      rw [hev]
      exact ⟨rfl, rfl⟩
    · rw [hA, hu2]
      refine ⟨Event.dialPfs (getPfsdAddress w.Getenv e) none ::
        Event.dialPps (getPpsdAddress w.Getenv e) none :: Event.startJob id (.ok r) ::
        Event.mount "/pfs" r.Shard (commitMounts r) :: Event.ready :: (transformStep w r).1,
        (transformStep w r).2, [], by simp,
        transformStep_success w r, before_report_quiet w e id r, ?_⟩
      intro ev hev
      cases hev
  · rw [hmount] at hc; cases hc

/-- The scenario of job-42: the Unmount call stands right after the report. -/
theorem teardown_follows_report_witness :
    ∃ pre success post,
      (run world0 env0 args42).trace =
        pre ++ Event.finishJob "job-42" allocation42.Shard success none ::
          Event.unmount "/pfs" (world0.Unmount "/pfs") :: post ∧
      (success = true ↔
        world0.RunResult allocation42.Transform.Stdin allocation42.Transform.Cmd = none) ∧
      (∀ ev ∈ pre, ev.isUnmount = false ∧ ev.isFinishJob = false) ∧
      (∀ ev ∈ post, ev.isUnmount = false ∧ ev.isFinishJob = false) :=
  teardown_follows_report world0 env0 args42 "job-42" allocation42 (by decide) (by decide)
    ⟨"job-42", 3, true, by decide⟩

/-! ## C10: the transform waits for the mount -/

/-- The mount is the first effect from the start of the mount on. -/
theorem mount_mem_mountAndRun (w : World) (id : String) (r : StartJobResponse) :
    Event.mount "/pfs" r.Shard (commitMounts r) ∈ (mountAndRun w id r).trace := by
  rcases mountAndRun_cases w id r with ⟨m, _, hM⟩ | ⟨_, hM⟩ | ⟨_, hM⟩ | ⟨k, m, _, _, hM⟩ <;>
    rw [hM] <;> exact List.mem_cons_self _ _

/-- C10. In every run, wherever the trace is split at a transform execution or at a
report-completion call, the readiness signal stands before it; and when the Mount call of the
run fails before signalling readiness or never signals it, the trace holds no transform
execution and no report-completion call. -/
theorem transform_only_after_ready (w : World) (e : appEnv) (args : List String) :
    (∀ (pre : List Event) (ev : Event) (post : List Event),
      (run w e args).trace = pre ++ ev :: post →
      (ev.isRunTransform = true ∨ ev.isFinishJob = true) → Event.ready ∈ pre) ∧
    ((∀ p s ms, Event.mount p s ms ∈ (run w e args).trace →
        (w.Mount p s ms = MountOutcome.neverReady ∨
          ∃ err, w.Mount p s ms = MountOutcome.failsBeforeReady err)) →
      ∀ ev ∈ (run w e args).trace, ev.isRunTransform = false ∧ ev.isFinishJob = false) := by
  constructor
  · intro pre ev post h hev
    have hq : (fun ev : Event => ev.isRunTransform || ev.isFinishJob) ev = true := by
      rcases hev with h1 | h1 <;> simp [h1]
    obtain ⟨p, hp, hp2⟩ := precededBy_split (run_ready_precedes w e args) pre ev post h hq
    cases p <;> first | exact hp | cases hp2
  · intro hm
    rcases run_cases w e args with ⟨m, _, hR⟩ | ⟨m, _, hR⟩ | ⟨_, hR⟩ | ⟨i, m, _, _, hR⟩ |
      ⟨i, r, _, _, hR⟩
    · rw [hR]; intro ev hev; simp at hev; rcases hev with rfl | rfl <;> exact ⟨rfl, rfl⟩
    · rw [hR]; intro ev hev; simp at hev; rcases hev with rfl | rfl | rfl <;> exact ⟨rfl, rfl⟩
    · rw [hR]; intro ev hev; simp at hev; rcases hev with rfl | rfl <;> exact ⟨rfl, rfl⟩
    · rw [hR]; intro ev hev; simp at hev
      rcases hev with rfl | rfl | rfl | rfl <;> exact ⟨rfl, rfl⟩
    · have hmount := hm "/pfs" r.Shard (commitMounts r) (by
        rw [hR]
        exact List.mem_cons_of_mem _ (List.mem_cons_of_mem _ (List.mem_cons_of_mem _
          (mount_mem_mountAndRun w i r))))
      rw [hR]
      rcases mountAndRun_cases w i r with ⟨m, _, hM⟩ | ⟨_, hM⟩ | ⟨hc, _⟩ | ⟨k, m, hc, _, _⟩
      · rw [hM]; intro ev hev; simp at hev
        rcases hev with rfl | rfl | rfl | rfl | rfl <;> exact ⟨rfl, rfl⟩
      · rw [hM]; intro ev hev; simp at hev
        rcases hev with rfl | rfl | rfl | rfl <;> exact ⟨rfl, rfl⟩
      · exfalso
        rcases hc with hc | ⟨k, m, hc, _⟩ <;> rw [hc] at hmount <;>
          rcases hmount with h1 | ⟨_, h1⟩ <;> cases h1
      · exfalso
        rw [hc] at hmount
        rcases hmount with h1 | ⟨_, h1⟩ <;> cases h1

/-- The mount of job-42 never becomes ready: Mount is called and nothing runs; in the
scenario where it does, the transform execution stands after the readiness signal. -/
theorem transform_only_after_ready_witness :
    Event.mount "/pfs" 3 [⟨v1, ""⟩, ⟨v2, "out"⟩] ∈ (run worldNeverReady env0 args42).trace ∧
    (run worldNeverReady env0 args42).outcome = Outcome.blocked ∧
    (∀ ev ∈ (run worldNeverReady env0 args42).trace,
      ev.isRunTransform = false ∧ ev.isFinishJob = false) ∧
    Event.ready ∈
      [Event.dialPfs "0.0.0.0:650" none, Event.dialPps "0.0.0.0:651" none,
       Event.startJob "job-42" (.ok allocation42),
       Event.mount "/pfs" 3 [⟨v1, ""⟩, ⟨v2, "out"⟩], Event.ready] :=
  ⟨by decide, by decide,
    (transform_only_after_ready worldNeverReady env0 args42).2 (fun _ _ _ _ => Or.inl rfl),
    (transform_only_after_ready world0 env0 args42).1 _
      (Event.runTransform "" ["/bin/echo", "hi"] none)
      [Event.finishJob "job-42" 3 true none, Event.unmount "/pfs" none]
      (by decide) (Or.inl rfl)⟩

/-! ## C4: an Unmount error -/

/-- C4 as stated fails when the mount point of job-42 is busy: allocation, mount and report
succeed, the report is delivered, Unmount returns an error, and the process ends with exit
code 1, where the same run with a successful Unmount ends with exit code 0. -/
theorem unmount_error_counterexample :
    Event.startJob "job-42" (.ok allocation42) ∈ (run worldUnmountFails env0 args42).trace ∧
    worldUnmountFails.Mount "/pfs" 3 (commitMounts allocation42) = MountOutcome.ready ∧
    Event.finishJob "job-42" 3 true none ∈ (run worldUnmountFails env0 args42).trace ∧
    Event.unmount "/pfs" (some "device busy") ∈ (run worldUnmountFails env0 args42).trace ∧
    (run worldUnmountFails env0 args42).outcome = Outcome.exited 1 ∧
    (run world0 env0 args42).outcome = Outcome.exited 0 := by
  decide

/-- C4, amended. In a run in which allocate-work returned the allocation `r`, the Mount call
signalled readiness and did not fail, a report-completion call returned no error and Unmount
returns the error `msg`: the trace ends with the report (delivered before teardown), the
Unmount call and the line that errorAndExit writes to the error stream for `msg`, no other
report or Unmount call stands before them, and the process ends with exit code 1. -/
theorem unmount_error_exits_after_report (w : World) (e : appEnv) (args : List String)
    (id : String) (r : StartJobResponse) (msg : String)
    (hstart : Event.startJob id (.ok r) ∈ (run w e args).trace)
    (hmount : w.Mount "/pfs" r.Shard (commitMounts r) = MountOutcome.ready)
    (hreport : ∃ i s b, Event.finishJob i s b none ∈ (run w e args).trace)
    (hun : w.Unmount "/pfs" = some msg) :
    (run w e args).outcome = Outcome.exited 1 ∧
    ∃ pre success,
      (run w e args).trace =
        pre ++ [Event.finishJob id r.Shard success none, Event.unmount "/pfs" (some msg),
          Event.stderr (w.Sprintf msg ++ "\n")] ∧
      ∀ ev ∈ pre, ev.isFinishJob = false ∧ ev.isUnmount = false := by
  obtain ⟨_, _, hR⟩ := run_of_startJob_ok hstart
  obtain ⟨i, s, b, hfin⟩ := hreport
  rw [hR] at hfin ⊢
  rcases mountAndRun_cases w id r with ⟨m, hc, _⟩ | ⟨hc, _⟩ | ⟨_, hM⟩ | ⟨k, m, hc, _, _⟩
  · rw [hmount] at hc; cases hc
  · rw [hmount] at hc; cases hc
  · rw [hM] at hfin ⊢
    simp only [List.mem_cons, reduceCtorEq, false_or] at hfin
    have hf := reportOk_mem_afterReady hfin
    rcases afterReady_cases w id r with ⟨m, hf2, _⟩ | ⟨m, _, hu2, hA⟩ | ⟨_, hu2, _⟩
    · rw [hf] at hf2; cases hf2
    · rw [hun] at hu2
      cases hu2
      rw [hA]
      refine ⟨rfl, Event.dialPfs (getPfsdAddress w.Getenv e) none ::
        Event.dialPps (getPpsdAddress w.Getenv e) none :: Event.startJob id (.ok r) ::
        Event.mount "/pfs" r.Shard (commitMounts r) :: Event.ready :: (transformStep w r).1,
        (transformStep w r).2, by simp, ?_⟩
      intro ev hev
      rcases transformStep_cases w r with ⟨m2, _, hT⟩ | ⟨_, hT⟩ <;> rw [hT] at hev <;>
        simp only [List.mem_cons, List.mem_singleton, List.not_mem_nil, or_false] at hev
      · rcases hev with rfl | rfl | rfl | rfl | rfl | rfl | rfl <;> exact ⟨rfl, rfl⟩
      · rcases hev with rfl | rfl | rfl | rfl | rfl | rfl <;> exact ⟨rfl, rfl⟩
    · rw [hun] at hu2; cases hu2
  · rw [hmount] at hc; cases hc

/-- The mount point of job-42 is busy at teardown. -/
theorem unmount_error_exits_after_report_witness :
    (run worldUnmountFails env0 args42).outcome = Outcome.exited 1 ∧
    ∃ pre success,
      (run worldUnmountFails env0 args42).trace =
        pre ++ [Event.finishJob "job-42" allocation42.Shard success none,
          Event.unmount "/pfs" (some "device busy"),
          Event.stderr (worldUnmountFails.Sprintf "device busy" ++ "\n")] ∧
      ∀ ev ∈ pre, ev.isFinishJob = false ∧ ev.isUnmount = false :=
  unmount_error_exits_after_report worldUnmountFails env0 args42 "job-42" allocation42
    "device busy" (by decide) (by decide) ⟨"job-42", 3, true, by decide⟩ (by decide)

/-! ## C5 and C6: the service locator -/

/-- C5. When the injected peer address of a service is not empty, the resolver returns it
followed by the fixed port of the service, whatever the connection string and the default
address are: `:650` for getPfsdAddress, `:651` for getPpsdAddress. -/
theorem injected_address_wins (getenv : String → String) (e : appEnv) :
    (getenv "PFSD_PORT_650_TCP_ADDR" ≠ "" →
      getPfsdAddress getenv e = getenv "PFSD_PORT_650_TCP_ADDR" ++ ":650") ∧
    (getenv "PPSD_PORT_651_TCP_ADDR" ≠ "" →
      getPpsdAddress getenv e = getenv "PPSD_PORT_651_TCP_ADDR" ++ ":651") := by
  constructor
  · intro h
    simp [getPfsdAddress, h]
  · intro h
    simp [getPpsdAddress, h]

/-- Injected addresses and connection strings are all set: the injected addresses win. -/
theorem injected_address_wins_witness :
    envLinked.PachydermPfsd1Port ≠ "" ∧ envLinked.PachydermPpsd1Port ≠ "" ∧
    getPfsdAddress worldInjected.Getenv envLinked = "10.0.0.1" ++ ":650" ∧
    getPpsdAddress worldInjected.Getenv envLinked = "10.0.0.2" ++ ":651" :=
  ⟨by decide, by decide,
    (injected_address_wins worldInjected.Getenv envLinked).1 (by decide),
    (injected_address_wins worldInjected.Getenv envLinked).2 (by decide)⟩

/-- Skipping `k` characters is dropping them. -/
theorem replaceGo_skip (old new : List Char) (k : Nat) (l : List Char) :
    replaceGo old new k l = replaceGo old new 0 (l.drop k) := by
  induction l generalizing k with
  | nil => cases k <;> simp [replaceGo]
  | cons c cs ih =>
    cases k with
    | zero => simp
    | succ k => simp only [replaceGo, List.drop_succ_cons]; exact ih k

/-- A string without occurrence of `old` is left as it is. -/
theorem replaceGo_unchanged (old new : List Char) (l : List Char) (h : ¬ old <:+: l) :
    replaceGo old new 0 l = l := by
  induction l with
  | nil => simp [replaceGo]
  | cons c cs ih =>
    have h1 : old.isPrefixOf (c :: cs) = false := by
      cases hp : old.isPrefixOf (c :: cs) with
      | false => rfl
      | true => exact absurd (List.isPrefixOf_iff_prefix.mp hp).isInfix h
    have h2 : ¬ old <:+: cs := fun hc => h (hc.trans (List.suffix_cons c cs).isInfix)
    simp [replaceGo, h1, ih h2]

/-- A leading occurrence of `old` is replaced and the scan goes on behind it. -/
theorem replaceGo_append (old new : List Char) (rest : List Char) (h : old ≠ []) :
    replaceGo old new 0 (old ++ rest) = new ++ replaceGo old new 0 rest := by
  cases old with
  | nil => exact absurd rfl h
  | cons c os =>
    have hp : (c :: os).isPrefixOf (c :: (os ++ rest)) = true :=
      List.isPrefixOf_iff_prefix.mpr (List.prefix_append (c :: os) rest)
    show replaceGo (c :: os) new 0 (c :: (os ++ rest)) = _
    rw [replaceGo, if_pos hp, replaceGo_skip]
    simp

/-- The connection-string branch and the default branch of a resolver, for both services. -/
theorem resolves_of_injected_empty (conn dflt : String) :
    ResolvesConnection conn dflt
      (if conn ≠ "" then stringsReplace conn "tcp://" "" else dflt) := by
  refine ⟨fun h => by simp [h], fun h => by simp [h], ?_, ?_⟩
  · intro rest hc hrest
    have hne : conn ≠ "" := by
      rw [hc]
      intro h0
      have := congrArg String.data h0
      simp at this
    simp only [hne, ne_eq, not_false_eq_true, if_true, stringsReplace, hc, String.data_append]
    rw [replaceGo_append _ _ _ (by decide), replaceGo_unchanged _ _ _ hrest]
    rfl
  · intro hne hfree
    simp only [hne, ne_eq, not_false_eq_true, if_true, stringsReplace]
    rw [replaceGo_unchanged _ _ _ hfree]

/-- C6 as stated fails for the connection string `tcp://a/tcp://b`: the resolver returns
`a/b`, the remainder after the leading schema is `a/tcp://b`. -/
theorem schema_stripping_counterexample :
    world0.Getenv "PFSD_PORT_650_TCP_ADDR" = "" ∧ envTwice.PachydermPfsd1Port ≠ "" ∧
    getPfsdAddress world0.Getenv envTwice = "a/b" ∧
    stripSchemaSpec envTwice.PachydermPfsd1Port = "a/tcp://b" ∧
    getPfsdAddress world0.Getenv envTwice ≠ stripSchemaSpec envTwice.PachydermPfsd1Port := by
  decide

/-- C6, amended. When the injected peer address of a service is empty, the resolver returns
the default address for an empty connection string and otherwise the connection string with
every occurrence of `tcp://` met in one scan from the left removed: the remainder when the
string starts with `tcp://` and the remainder holds no further `tcp://`, the string itself
when it holds no `tcp://`. The same holds for getPfsdAddress and getPpsdAddress. -/
theorem connection_string_resolution (getenv : String → String) (e : appEnv) :
    (getenv "PFSD_PORT_650_TCP_ADDR" = "" →
      ResolvesConnection e.PachydermPfsd1Port e.PfsAddress (getPfsdAddress getenv e)) ∧
    (getenv "PPSD_PORT_651_TCP_ADDR" = "" →
      ResolvesConnection e.PachydermPpsd1Port e.PpsAddress (getPpsdAddress getenv e)) := by
  constructor
  · intro h
    have := resolves_of_injected_empty e.PachydermPfsd1Port e.PfsAddress
    simpa [getPfsdAddress, h] using this
  · intro h
    have := resolves_of_injected_empty e.PachydermPpsd1Port e.PpsAddress
    simpa [getPpsdAddress, h] using this

/-- No injected address; the connection strings of the linked environment start with the
schema and hold it once. -/
theorem connection_string_resolution_witness :
    getPfsdAddress world0.Getenv envLinked = "172.17.0.2:650" ∧
    getPpsdAddress world0.Getenv envLinked = "172.17.0.3:651" ∧
    getPfsdAddress world0.Getenv env0 = "0.0.0.0:650" :=
  ⟨((connection_string_resolution world0.Getenv envLinked).1 (by decide)).2.2.1
      "172.17.0.2:650" (by decide) (by decide),
    ((connection_string_resolution world0.Getenv envLinked).2 (by decide)).2.2.1
      "172.17.0.3:651" (by decide) (by decide),
    ((connection_string_resolution world0.Getenv env0).1 (by decide)).1 (by decide)⟩

/-! ## C7: the commit mounts -/

/-- The loop of lines 61 to 63 appends one mount per input commit to what it started with. -/
theorem foldl_commitMount (inputs : List Commit) (acc : List CommitMount) :
    inputs.foldl
        (fun acc inputCommit => acc ++ [({ Commit := inputCommit, Alias := "" } : CommitMount)])
        acc =
      acc ++ inputs.map (fun c => ({ Commit := c, Alias := "" } : CommitMount)) := by
  induction inputs generalizing acc with
  | nil => simp
  | cons c cs ih => simp [List.foldl_cons, ih]

/-- The commit mounts are the inputs in order, without alias, then the output as `out`. -/
theorem commitMounts_eq (r : StartJobResponse) :
    commitMounts r =
      r.InputCommit.map (fun c => ({ Commit := c, Alias := "" } : CommitMount)) ++
        [{ Commit := r.OutputCommit, Alias := "out" }] := by
  simp [commitMounts, foldl_commitMount]

/-- The only Mount call of a run is the one of the code, on the allocation of the run. -/
theorem mount_mem_run {w : World} {e : appEnv} {args : List String} {p : String} {s : Nat}
    {ms : List CommitMount} (h : Event.mount p s ms ∈ (run w e args).trace) :
    ∃ id r, args.head? = some id ∧ w.StartJob id = .ok r ∧ p = "/pfs" ∧ s = r.Shard ∧
      ms = commitMounts r := by
  rcases run_cases w e args with ⟨m, _, hR⟩ | ⟨m, _, hR⟩ | ⟨_, hR⟩ | ⟨i, m, _, _, hR⟩ |
    ⟨i, r, h1, h2, hR⟩ <;> rw [hR] at h <;>
    simp only [List.mem_cons, List.mem_singleton, List.not_mem_nil, reduceCtorEq, false_or,
      or_false] at h
  rcases mem_mountAndRun h with h | h | ⟨_, h⟩ | h
  · simp only [Event.mount.injEq] at h
    exact ⟨i, r, h1, h2, h.1, h.2.1, h.2.2⟩
  · cases h
  · cases h
  · rcases mem_afterReady h with ⟨_, h⟩ | ⟨_, h⟩ | ⟨_, h⟩ | ⟨_, h⟩ <;> cases h

/-- C7. The list of commit mounts handed to a Mount call of a run comes from the allocation
`r` that allocate-work returned for the job id: it has one entry more than `r` has input
commits; entry `k` is the `k`-th input commit with an empty alias; the last entry is the
output commit with the alias `out`; and no other entry has the alias `out`. -/
theorem commit_mounts_shape (w : World) (e : appEnv) (args : List String) (p : String)
    (s : Nat) (ms : List CommitMount) (h : Event.mount p s ms ∈ (run w e args).trace) :
    ∃ id r, args.head? = some id ∧ w.StartJob id = .ok r ∧ p = "/pfs" ∧ s = r.Shard ∧
      ms.length = r.InputCommit.length + 1 ∧
      (∀ (k : Nat) (c : Commit), r.InputCommit[k]? = some c → ms[k]? = some (CommitMount.mk c "")) ∧
      ms[r.InputCommit.length]? = some (CommitMount.mk r.OutputCommit "out") ∧
      (∀ (k : Nat) (m : CommitMount), ms[k]? = some m → m.Alias = "out" → k = r.InputCommit.length) := by
  obtain ⟨id, r, h1, h2, h3, h4, rfl⟩ := mount_mem_run h
  refine ⟨id, r, h1, h2, h3, h4, ?_, ?_, ?_, ?_⟩
  · simp [commitMounts_eq]
  · intro k c hc
    have hk : k < r.InputCommit.length := by
      by_contra hlt
      rw [List.getElem?_eq_none (by omega)] at hc
      cases hc
    rw [commitMounts_eq, List.getElem?_append_left (by simpa using hk), List.getElem?_map, hc]
    rfl
  · rw [commitMounts_eq, List.getElem?_append_right (by simp)]
    simp
  · intro k m hm hout
    rw [commitMounts_eq] at hm
    rcases Nat.lt_trichotomy k r.InputCommit.length with hk | hk | hk
    · rw [List.getElem?_append_left (by simpa using hk), List.getElem?_map] at hm
      cases hi : r.InputCommit[k]? with
      | none => rw [hi] at hm; cases hm
      | some c =>
        rw [hi] at hm
        simp only [Option.map_some', Option.some.injEq] at hm
        rw [← hm] at hout
        simp at hout
    · exact hk
    · rw [List.getElem?_eq_none (by simp; omega)] at hm
      cases hm

/-- The Mount call of job-42: one input commit and the output commit. -/
theorem commit_mounts_shape_witness :
    ∃ id r, args42.head? = some id ∧ world0.StartJob id = .ok r ∧ "/pfs" = "/pfs" ∧
      3 = r.Shard ∧
      [CommitMount.mk v1 "", CommitMount.mk v2 "out"].length =
        r.InputCommit.length + 1 ∧
      (∀ (k : Nat) (c : Commit), r.InputCommit[k]? = some c →
        [CommitMount.mk v1 "", CommitMount.mk v2 "out"][k]? =
          some (CommitMount.mk c "")) ∧
      [CommitMount.mk v1 "", CommitMount.mk v2 "out"][r.InputCommit.length]? =
          some (CommitMount.mk r.OutputCommit "out") ∧
      (∀ (k : Nat) (m : CommitMount),
        [CommitMount.mk v1 "", CommitMount.mk v2 "out"][k]? =
          some m → m.Alias = "out" → k = r.InputCommit.length) :=
  commit_mounts_shape world0 env0 args42 "/pfs" 3
    [CommitMount.mk v1 "", CommitMount.mk v2 "out"] (by decide)

end JobShim
